import Mathlib

/-!
Verification of the nanobana_gen job / preset / filename core

Shallow embedding of the Convex backend of this repository:

* `src/convex/publicJobs.ts` — public job queries and mutations
  (`listJobs`, `getBatchSummary`, `createJob`, `setJobProcessing`,
  `setJobCompleted`, `setJobFailed`);
* `convex/jobs.ts` (source included in `src/CONVEX_SETUP.md`) — the internal
  mutations used by the orchestrator (`setProcessing`, `setCompleted`,
  `setFailed`, `getById`);
* `convex/presets.ts` (source included in `src/CONVEX_SETUP.md`) — preset CRUD
  (`createPreset`, `updatePreset`);
* `convex/utils/filenameUtils.ts` (source included in `src/CONVEX_SETUP.md`) —
  `generateOutputFilename` and `getFilenameFromUrl`, including a small
  executable model of the JavaScript regular-expression constructs those
  patterns use;
* `src/convex/processing.ts` — the `processJob` orchestrator.

Convex documents are modelled as association lists from numeric ids to
records; `Date.now()` is an explicit `now : Nat` argument; JavaScript
`undefined`/missing optional fields are `Option.none`; a thrown exception is
`Except.error` carrying the error message.
-/

namespace NanobanaGen

/-! ## Data model (`convex/schema.ts`) -/

/-- The four job states of the `status` field in the `jobs` table. -/
inductive JobStatus where
  | pending
  | processing
  | completed
  | failed
deriving DecidableEq, Repr

/-- The shared `configValidator` object of `convex/schema.ts`, used both as the
job's config snapshot and as the preset input.  `ownLogoData` is declared
`v.optional(v.union(v.string(), v.null()))`, so it distinguishes an absent
field (`none`) from a present `null` (`some none`) and a present string
(`some (some s)`). -/
structure ProcessingConfig where
  targetCountry : String
  additionalContext : String
  removeBranding : Bool
  addBrandingColors : Bool
  brandingColor : String
  addOwnLogo : Bool
  ownLogoData : Option (Option String) := none
  filenameFindPattern : String
  filenameReplacePattern : String
  modelVersion : Option String := none
  aspectRatio : Option String := none
  imageSize : Option String := none
deriving DecidableEq, Repr

/-- A row of the `jobs` table.  File-storage ids are modelled as `Nat`. -/
structure Job where
  batchId : Option String := none
  sourceUrl : String
  presetName : Option String := none
  config : ProcessingConfig
  status : JobStatus
  error : Option String := none
  generatedFileId : Option Nat := none
  generatedFileName : Option String := none
  generatedUrl : Option String := none
  generatedUrlWithExtension : Option String := none
  promptTokens : Option Nat := none
  candidateTokens : Option Nat := none
  totalTokens : Option Nat := none
  createdAt : Nat
  completedAt : Option Nat := none
deriving DecidableEq, Repr

/-- The `jobs` table: rows keyed by document id, in insertion
(`_creationTime`) order, plus the next fresh id. -/
structure JobsStore where
  rows : List (Nat × Job) := []
  nextId : Nat := 0
deriving DecidableEq, Repr

/-- Models `ctx.db.insert("jobs", doc)`: appends a row under a fresh id. -/
def JobsStore.insert (s : JobsStore) (j : Job) : Nat × JobsStore :=
  (s.nextId, { rows := s.rows ++ [(s.nextId, j)], nextId := s.nextId + 1 })

/-- Models `ctx.db.get(jobId)`. -/
def JobsStore.get (s : JobsStore) (jobId : Nat) : Option Job :=
  (s.rows.find? (fun r => r.1 = jobId)).map (fun r => r.2)

/-- Models `ctx.db.patch(jobId, fields)`: rewrites the fields of an existing row;
patching an id that names no document throws, hence the `Option`. -/
def JobsStore.patch (s : JobsStore) (jobId : Nat) (f : Job → Job) :
    Option JobsStore :=
  if s.rows.any (fun r => r.1 = jobId) then
    some { s with
           rows := s.rows.map (fun r => if r.1 = jobId then (r.1, f r.2) else r) }
  else
    none

/-- Models `withIndex("by_batchId", q.eq("batchId", batchId)).collect()`: the rows
whose `batchId` field equals the given string, in creation order.  A job with
no `batchId` matches no string. -/
def JobsStore.byBatchId (s : JobsStore) (batchId : String) : List Job :=
  (s.rows.filter (fun r => r.2.batchId = some batchId)).map (fun r => r.2)

/-- Models `withIndex("by_status", q.eq("status", status)).collect()`. -/
def JobsStore.byStatus (s : JobsStore) (status : JobStatus) : List Job :=
  (s.rows.filter (fun r => r.2.status = status)).map (fun r => r.2)

/-- Stable insertion into a list ascending by `createdAt`. -/
def insertByCreatedAt (x : Nat × Job) : List (Nat × Job) → List (Nat × Job)
  | [] => [x]
  | a :: l =>
    if x.2.createdAt ≤ a.2.createdAt then x :: a :: l
    else a :: insertByCreatedAt x l

/-- Stable sort of the rows ascending by `createdAt` — the `by_createdAt`
index order, whose ties are broken by `_creationTime`, i.e. by insertion
order. -/
def sortByCreatedAtAsc (l : List (Nat × Job)) : List (Nat × Job) :=
  l.foldr insertByCreatedAt []

/-- Models `withIndex("by_createdAt").order("desc").collect()`: all rows, sorted by
`createdAt` descending (the reverse of the ascending index order). -/
def JobsStore.byCreatedAtDesc (s : JobsStore) : List Job :=
  ((sortByCreatedAtAsc s.rows).reverse).map (fun r => r.2)

/-! ## Public job queries (`src/convex/publicJobs.ts`) -/

/-- The arguments of the public `listJobs` query, each `v.optional`. -/
structure ListJobsArgs where
  limit : Option Nat := none
  offset : Option Nat := none
  status : Option JobStatus := none
  batchId : Option String := none
deriving DecidableEq, Repr

/-- The return object of `listJobs`. -/
structure ListJobsResult where
  jobs : List Job
  total : Nat
  limit : Nat
  offset : Nat
deriving DecidableEq, Repr

/-- Models `listJobs` (`src/convex/publicJobs.ts`).  The `if (args.batchId)` guard is
JavaScript truthiness: a supplied batch id equal to `""` is falsy and falls
through to the status branch, exactly as `undefined` does. -/
def listJobs (s : JobsStore) (args : ListJobsArgs) : ListJobsResult :=
  let limit := args.limit.getD 50
  let offset := args.offset.getD 0
  let allJobs :=
    match args.batchId with
    | some b =>
      if b = "" then
        match args.status with
        | some status => s.byStatus status
        | none => s.byCreatedAtDesc
      else s.byBatchId b
    | none =>
      match args.status with
      | some status => s.byStatus status
      | none => s.byCreatedAtDesc
  let total := allJobs.length
  let jobs := (allJobs.drop offset).take limit
  { jobs := jobs, total := total, limit := limit, offset := offset }

/-- Models `getJob` (`src/convex/publicJobs.ts`). -/
def getJob (s : JobsStore) (jobId : Nat) : Option Job :=
  s.get jobId

/-- Models `getJobsByBatch` (`src/convex/publicJobs.ts`). -/
def getJobsByBatch (s : JobsStore) (batchId : String) : List Job :=
  s.byBatchId batchId

/-- The return object of `getBatchSummary`. -/
structure BatchSummary where
  batchId : String
  total : Nat
  completed : Nat
  failed : Nat
  pending : Nat
  processing : Nat
  totalTokens : Nat
deriving DecidableEq, Repr

/-- Models `getBatchSummary` (`src/convex/publicJobs.ts`): loads the batch's jobs and
reduces `(sum, j) => sum + (j.totalTokens ?? 0)` over **all** of them. -/
def getBatchSummary (s : JobsStore) (batchId : String) : BatchSummary :=
  let jobs := s.byBatchId batchId
  { batchId := batchId
    total := jobs.length
    completed := (jobs.filter (fun j => j.status = .completed)).length
    failed := (jobs.filter (fun j => j.status = .failed)).length
    pending := (jobs.filter (fun j => j.status = .pending)).length
    processing := (jobs.filter (fun j => j.status = .processing)).length
    totalTokens := jobs.foldl (fun sum j => sum + j.totalTokens.getD 0) 0 }

/-! ## Public job mutations (`src/convex/publicJobs.ts`) -/

/-- Models `createJob` (`src/convex/publicJobs.ts`): inserts a `pending` job whose
`generatedFileName` field is initialised to `args.sourceName` and whose
`createdAt` is `Date.now()`.  Returns the new id and the new store. -/
def createJob (s : JobsStore) (now : Nat) (sourceUrl sourceName : String)
    (config : ProcessingConfig) (presetName : Option String := none)
    (batchId : Option String := none) : Nat × JobsStore :=
  s.insert
    { sourceUrl := sourceUrl
      config := config
      presetName := presetName
      batchId := batchId
      status := .pending
      generatedFileName := some sourceName
      createdAt := now }

/-- Models `setJobProcessing` (`src/convex/publicJobs.ts`), identical in content to
the internal `jobs.setProcessing` used by the orchestrator: patches only the
`status` field, with no guard on the current status. -/
def setJobProcessing (s : JobsStore) (jobId : Nat) : Option JobsStore :=
  s.patch jobId (fun j => { j with status := .processing })

/-- Models `setJobCompleted` (`src/convex/publicJobs.ts`): patches status, URL,
filename, the three token counters (a missing optional argument clears the
field, since Convex `patch` writes every key of the patch object) and
`completedAt := Date.now()`. -/
def setJobCompleted (s : JobsStore) (now : Nat) (jobId : Nat)
    (generatedUrl generatedFileName : String)
    (promptTokens candidateTokens totalTokens : Option Nat := none) :
    Option JobsStore :=
  s.patch jobId (fun j =>
    { j with
      status := .completed
      generatedUrl := some generatedUrl
      generatedFileName := some generatedFileName
      promptTokens := promptTokens
      candidateTokens := candidateTokens
      totalTokens := totalTokens
      completedAt := some now })

/-- Models `setJobFailed` (`src/convex/publicJobs.ts`), identical in content to the
internal `jobs.setFailed`: records the error message and `completedAt`. -/
def setJobFailed (s : JobsStore) (now : Nat) (jobId : Nat) (error : String) :
    Option JobsStore :=
  s.patch jobId (fun j =>
    { j with
      status := .failed
      error := some error
      completedAt := some now })

/-- The internal `jobs.setCompleted` (`convex/jobs.ts`, in
`src/CONVEX_SETUP.md`), used by the orchestrator: like the public
`setJobCompleted` but it also records the storage `generatedFileId`. -/
def jobsSetCompleted (s : JobsStore) (now : Nat) (jobId : Nat)
    (generatedFileId : Nat) (generatedFileName generatedUrl : String)
    (promptTokens candidateTokens totalTokens : Option Nat := none) :
    Option JobsStore :=
  s.patch jobId (fun j =>
    { j with
      status := .completed
      generatedFileId := some generatedFileId
      generatedFileName := some generatedFileName
      generatedUrl := some generatedUrl
      promptTokens := promptTokens
      candidateTokens := candidateTokens
      totalTokens := totalTokens
      completedAt := some now })

/-! ## Preset store (`convex/presets.ts`, source in `src/CONVEX_SETUP.md`) -/

/-- A row of the `presets` table.  The insert spreads `...args.config` at top
level, so the twelve config fields live directly in the document next to
`name`, `createdAt` and `updatedAt`. -/
structure Preset where
  name : String
  targetCountry : String
  additionalContext : String
  removeBranding : Bool
  addBrandingColors : Bool
  brandingColor : String
  addOwnLogo : Bool
  ownLogoData : Option (Option String) := none
  filenameFindPattern : String
  filenameReplacePattern : String
  modelVersion : Option String := none
  aspectRatio : Option String := none
  imageSize : Option String := none
  createdAt : Nat
  updatedAt : Nat
deriving DecidableEq, Repr

/-- The `presets` table. -/
structure PresetsStore where
  rows : List (Nat × Preset) := []
  nextId : Nat := 0
deriving DecidableEq, Repr

/-- Models `withIndex("by_name", q.eq("name", name)).unique()`: `none` when no row
matches, the row when exactly one does, and a thrown error (`Except.error`)
when several match — reachable only if the uniqueness invariant were already
broken. -/
def PresetsStore.uniqueByName (s : PresetsStore) (name : String) :
    Except String (Option (Nat × Preset)) :=
  match s.rows.filter (fun r => r.2.name = name) with
  | [] => .ok none
  | [r] => .ok (some r)
  | _ => .error "unique() query returned more than one document"

/-- Builds the inserted preset document `{ name, ...config, createdAt: now,
updatedAt: now }`. -/
def Preset.ofConfig (name : String) (config : ProcessingConfig) (now : Nat) :
    Preset :=
  { name := name
    targetCountry := config.targetCountry
    additionalContext := config.additionalContext
    removeBranding := config.removeBranding
    addBrandingColors := config.addBrandingColors
    brandingColor := config.brandingColor
    addOwnLogo := config.addOwnLogo
    ownLogoData := config.ownLogoData
    filenameFindPattern := config.filenameFindPattern
    filenameReplacePattern := config.filenameReplacePattern
    modelVersion := config.modelVersion
    aspectRatio := config.aspectRatio
    imageSize := config.imageSize
    createdAt := now
    updatedAt := now }

/-- Models `args.name.trim()`: strip leading and trailing whitespace. -/
def trimWS (l : List Char) : List Char :=
  ((l.dropWhile Char.isWhitespace).reverse.dropWhile Char.isWhitespace).reverse

/-- Models `createPreset` (public mutation, `src/CONVEX_SETUP.md`): rejects a blank
name (`!args.name || args.name.trim().length === 0`), throws a
duplicate-name error when a preset with the name exists, and otherwise
inserts `{ name, ...config, createdAt, updatedAt }`.  A throwing mutation
performs no write, so the error branch returns no store. -/
def createPreset (s : PresetsStore) (now : Nat) (name : String)
    (config : ProcessingConfig) : Except String (Nat × PresetsStore) :=
  if name = "" ∨ (trimWS name.data).length = 0 then
    .error "Preset name cannot be empty"
  else
    match s.uniqueByName name with
    | .error e => .error e
    | .ok (some _) =>
      .error ("Preset with name \x22" ++ name ++ "\x22 already exists")
    | .ok none =>
      .ok (s.nextId,
        { rows := s.rows ++ [(s.nextId, Preset.ofConfig name config now)],
          nextId := s.nextId + 1 })

/-- Models `db.patch(existing._id, { ...args.config, updatedAt })` for a preset:
every key present in the spread is rewritten; an optional config field that
the caller omitted contributes no key, so the stored value survives. -/
def Preset.patchConfig (p : Preset) (config : ProcessingConfig) (now : Nat) :
    Preset :=
  { p with
    targetCountry := config.targetCountry
    additionalContext := config.additionalContext
    removeBranding := config.removeBranding
    addBrandingColors := config.addBrandingColors
    brandingColor := config.brandingColor
    addOwnLogo := config.addOwnLogo
    ownLogoData := match config.ownLogoData with
      | some v => some v
      | none => p.ownLogoData
    filenameFindPattern := config.filenameFindPattern
    filenameReplacePattern := config.filenameReplacePattern
    modelVersion := match config.modelVersion with
      | some v => some v
      | none => p.modelVersion
    aspectRatio := match config.aspectRatio with
      | some v => some v
      | none => p.aspectRatio
    imageSize := match config.imageSize with
      | some v => some v
      | none => p.imageSize
    updatedAt := now }

/-- Models `updatePreset` (public mutation, `src/CONVEX_SETUP.md`): throws `NotFound`
when no preset has the name, otherwise patches the existing document with the
spread config and a fresh `updatedAt`. -/
def updatePreset (s : PresetsStore) (now : Nat) (name : String)
    (config : ProcessingConfig) : Except String PresetsStore :=
  match s.uniqueByName name with
  | .error e => .error e
  | .ok none => .error ("Preset \x22" ++ name ++ "\x22 not found")
  | .ok (some (id, p)) =>
    .ok { s with
          rows := s.rows.map (fun r =>
            if r.1 = id then (r.1, p.patchConfig config now) else r) }

/-- Models `getPreset` (public query): `by_name` unique lookup. -/
def getPreset (s : PresetsStore) (name : String) :
    Except String (Option Preset) :=
  (s.uniqueByName name).map (fun o => o.map (fun r => r.2))

/-! ## JavaScript regular expressions, as used by `filenameUtils.ts`

`generateOutputFilename` compiles the user-supplied find pattern with
`new RegExp(findPattern)` and uses `regex.test` and `String.replace`.  The
model below implements, with ECMAScript semantics (leftmost match, greedy
backtracking quantifiers, capture groups numbered by opening parenthesis,
`$n`/`$$` replacement references), the construct subset those patterns use:
`^ $ . * + ?`, identity escapes `\c`, character classes `[...]`/`[^...]` with
ranges, and capturing groups.  Patterns outside this subset fail to parse,
which the embedding treats as `new RegExp` throwing. -/

/-- Greedy quantifier on an atom: exactly one, `*`, `+`, or `?`. -/
inductive Quant where
  | one
  | star
  | plus
  | opt
deriving DecidableEq, Repr

mutual

/-- Regex atoms: anchors, `.`, a literal character, a character class
(possibly negated) of inclusive ranges, and a capturing group containing a
sequence of quantified atoms. -/
inductive RNode where
  | start
  | eol
  | dot
  | lit (c : Char)
  | cls (neg : Bool) (ranges : List (Char × Char))
  | group (idx : Nat) (body : RSeq)

/-- A compiled pattern: a sequence of quantified atoms. -/
inductive RSeq where
  | nil
  | cons (n : RNode) (q : Quant) (rest : RSeq)

end

deriving instance DecidableEq for RNode, RSeq

/-- A compiled pattern. -/
abbrev Regex := RSeq

mutual

/-- Structural size of an atom, used to budget matching fuel. -/
def RNode.size : RNode → Nat
  | .group _ body => body.size + 1
  | _ => 1

/-- Structural size of a sequence. -/
def RSeq.size : RSeq → Nat
  | .nil => 1
  | .cons n _ rest => n.size + rest.size + 1

end

/-- Capture state: pairs of group index and captured text, newest first. -/
abbrev Caps := List (Nat × List Char)

/-- Returns `true` for the four ECMAScript line terminators, which `.`
never matches. -/
def isLineTerminator (c : Char) : Bool :=
  c = '\n' || c = '\r' || c.toNat = 0x2028 || c.toNat = 0x2029

/-- A pending matching obligation: a sequence, a quantified atom, further
greedy repetitions of an atom, or a single atom. -/
inductive MTask where
  | seq (r : RSeq)
  | item (n : RNode) (q : Quant)
  | more (n : RNode)
  | node (n : RNode)

/-- The backtracking matcher.  `matchGo inp fuel task pos caps` returns all
ways the obligation can match starting at `pos`, as `(end, captures)` pairs
in backtracking priority order (first element = ECMAScript's match).
Greedy quantifiers list longer matches first; a quantified atom that
matched empty is not repeated, as in ECMAScript's repeat-matcher.  `fuel`
bounds recursion depth and is chosen large enough by `matchFuel`. -/
def matchGo (inp : List Char) : Nat → MTask → Nat → Caps → List (Nat × Caps)
  | 0, _, _, _ => []
  | _ + 1, .seq .nil, pos, caps => [(pos, caps)]
  | fuel + 1, .seq (.cons n q rest), pos, caps =>
    (matchGo inp fuel (.item n q) pos caps).flatMap
      (fun pc => matchGo inp fuel (.seq rest) pc.1 pc.2)
  | fuel + 1, .item n Quant.one, pos, caps =>
    matchGo inp fuel (.node n) pos caps
  | fuel + 1, .item n Quant.star, pos, caps =>
    matchGo inp fuel (.more n) pos caps ++ [(pos, caps)]
  | fuel + 1, .item n Quant.plus, pos, caps =>
    (matchGo inp fuel (.node n) pos caps).flatMap
      (fun pc =>
        (if pos < pc.1 then matchGo inp fuel (.more n) pc.1 pc.2 else []) ++
          [pc])
  | fuel + 1, .item n Quant.opt, pos, caps =>
    matchGo inp fuel (.node n) pos caps ++ [(pos, caps)]
  | fuel + 1, .more n, pos, caps =>
    (matchGo inp fuel (.node n) pos caps).flatMap
      (fun pc =>
        if pos < pc.1 then matchGo inp fuel (.more n) pc.1 pc.2 ++ [pc]
        else [])
  | _ + 1, .node RNode.start, pos, caps =>
    if pos = 0 then [(pos, caps)] else []
  | _ + 1, .node RNode.eol, pos, caps =>
    if pos = inp.length then [(pos, caps)] else []
  | _ + 1, .node RNode.dot, pos, caps =>
    (match inp.get? pos with
     | some c => if isLineTerminator c then [] else [(pos + 1, caps)]
     | none => [])
  | _ + 1, .node (RNode.lit c), pos, caps =>
    (match inp.get? pos with
     | some c2 => if c2 = c then [(pos + 1, caps)] else []
     | none => [])
  | _ + 1, .node (RNode.cls neg ranges), pos, caps =>
    (match inp.get? pos with
     | some c =>
       if (ranges.any (fun r => r.1 ≤ c && c ≤ r.2)) != neg then
         [(pos + 1, caps)]
       else []
     | none => [])
  | fuel + 1, .node (RNode.group idx body), pos, caps =>
    (matchGo inp fuel (.seq body) pos caps).map
      (fun pc => (pc.1, (idx, (inp.drop pos).take (pc.1 - pos)) :: pc.2))

/-- Matching a sequence. -/
def matchSeq (inp : List Char) (fuel : Nat) (r : Regex) (pos : Nat)
    (caps : Caps) : List (Nat × Caps) :=
  matchGo inp fuel (.seq r) pos caps

/-- Fuel amply covering the backtracking depth of any match attempt. -/
def matchFuel (inp : List Char) (r : Regex) : Nat :=
  (r.size + 2) * (inp.length + 2) + 2

/-- Tries match start positions `pos, pos+1, ...` (`k` of them) and returns
the first success as `(start, end, captures)` — ECMAScript's leftmost
match. -/
def firstMatchFrom (inp : List Char) (r : Regex) (k pos : Nat) :
    Option (Nat × Nat × Caps) :=
  match k with
  | 0 => none
  | k + 1 =>
    match matchSeq inp (matchFuel inp r) r pos [] with
    | pc :: _ => some (pos, pc.1, pc.2)
    | [] => firstMatchFrom inp r k (pos + 1)

/-- The first match of `r` in `inp`, if any. -/
def firstMatch (inp : List Char) (r : Regex) : Option (Nat × Nat × Caps) :=
  firstMatchFrom inp r (inp.length + 1) 0

/-- Models `regex.test(s)`. -/
def regexTest (inp : List Char) (r : Regex) : Bool :=
  (firstMatch inp r).isSome

/-- Decimal value of an ASCII digit. -/
def digitVal (c : Char) : Option Nat :=
  if '0' ≤ c ∧ c ≤ '9' then some (c.toNat - '0'.toNat) else none

/-- One character inside a class: a literal, or an identity escape `\c` of a
non-alphanumeric character.  `]` ends the class and alphanumeric escapes
(`\d`, `\w`, …) are outside the modelled subset. -/
def takeClassChar : List Char → Option (Char × List Char)
  | [] => none
  | ']' :: _ => none
  | '\\' :: c :: rest => if c.isAlphanum then none else some (c, rest)
  | '\\' :: [] => none
  | c :: rest => some (c, rest)

/-- Parses class items up to the closing `]`: single characters and ranges
`a-b` (a `-` that is first or last is a literal, and an out-of-order range is
a syntax error). -/
def parseClassItems (fuel : Nat) (input : List Char) :
    Option (List (Char × Char) × List Char) :=
  match fuel with
  | 0 => none
  | fuel + 1 =>
    match input with
    | ']' :: rest => some ([], rest)
    | _ =>
      (takeClassChar input).bind (fun cr =>
        match cr.2 with
        | '-' :: rest2 =>
          match rest2 with
          | ']' :: _ =>
            (parseClassItems fuel cr.2).map
              (fun rs => ((cr.1, cr.1) :: rs.1, rs.2))
          | _ =>
            (takeClassChar rest2).bind (fun cr2 =>
              if cr.1 ≤ cr2.1 then
                (parseClassItems fuel cr2.2).map
                  (fun rs => ((cr.1, cr2.1) :: rs.1, rs.2))
              else none)
        | _ =>
          (parseClassItems fuel cr.2).map
            (fun rs => ((cr.1, cr.1) :: rs.1, rs.2)))

/-- Parses a class after the opening `[`, with its optional leading `^`. -/
def parseClass (fuel : Nat) (input : List Char) :
    Option (Bool × List (Char × Char) × List Char) :=
  match input with
  | '^' :: rest => (parseClassItems fuel rest).map (fun rs => (true, rs.1, rs.2))
  | rest => (parseClassItems fuel rest).map (fun rs => (false, rs.1, rs.2))

/-- Reads an optional quantifier character. -/
def parseQuant : List Char → Quant × List Char
  | '*' :: rest => (Quant.star, rest)
  | '+' :: rest => (Quant.plus, rest)
  | '?' :: rest => (Quant.opt, rest)
  | input => (Quant.one, input)

/-- Returns `true` for the anchors, which ECMAScript refuses to quantify. -/
def RNode.isAnchor : RNode → Bool
  | .start => true
  | .eol => true
  | _ => false

mutual

/-- Parses one atom.  `g` is the next capture-group number; `(?...)` forms,
alternation, braces, back-references and alphanumeric escapes are outside the
modelled subset and fail to parse. -/
def parseAtom (fuel : Nat) (input : List Char) (g : Nat) :
    Option (RNode × List Char × Nat) :=
  match fuel with
  | 0 => none
  | fuel + 1 =>
    match input with
    | [] => none
    | '^' :: rest => some (.start, rest, g)
    | '$' :: rest => some (.eol, rest, g)
    | '.' :: rest => some (.dot, rest, g)
    | '(' :: rest =>
      if rest.head? = some '?' then none
      else
        (parseSeq fuel rest (g + 1)).bind (fun pr =>
          match pr.2.1 with
          | ')' :: rem2 => some (.group g pr.1, rem2, pr.2.2)
          | _ => none)
    | '[' :: rest =>
      (parseClass (input.length + 1) rest).map
        (fun pc => (.cls pc.1 pc.2.1, pc.2.2, g))
    | '\\' :: c :: rest =>
      if c.isAlphanum then none else some (.lit c, rest, g)
    | '\\' :: [] => none
    | '*' :: _ => none
    | '+' :: _ => none
    | '?' :: _ => none
    | '|' :: _ => none
    | '{' :: _ => none
    | '}' :: _ => none
    | ')' :: _ => none
    | c :: rest => some (.lit c, rest, g)

/-- Parses a sequence of quantified atoms up to `)` or the end of the
pattern, threading the capture-group counter.  Lazy quantifiers (`*?` etc.)
and quantified anchors fail to parse. -/
def parseSeq (fuel : Nat) (input : List Char) (g : Nat) :
    Option (Regex × List Char × Nat) :=
  match fuel with
  | 0 => none
  | fuel + 1 =>
    match input with
    | [] => some (.nil, [], g)
    | ')' :: rest => some (.nil, ')' :: rest, g)
    | _ =>
      (parseAtom fuel input g).bind (fun pa =>
        let node := pa.1
        let q := parseQuant pa.2.1
        if q.1 ≠ Quant.one ∧ (q.2.head? = some '?' ∨ node.isAnchor) then none
        else
          (parseSeq fuel q.2 pa.2.2).map
            (fun ps => (.cons node q.1 ps.1, ps.2.1, ps.2.2)))

end

/-- Models `new RegExp(pattern)`: the compiled pattern and its number of capture
groups, or `none` when compilation throws. -/
def parseRegex (pattern : String) : Option (Regex × Nat) :=
  match parseSeq (2 * pattern.length + 4) pattern.data 1 with
  | some (r, [], g) => some (r, g - 1)
  | _ => none

/-- The text of a capture group in a replacement: empty when the group did
not participate in the match. -/
def capRef (caps : Caps) (i : Nat) : List Char :=
  match caps.find? (fun p => p.1 = i) with
  | some p => p.2
  | none => []

/-- Scanner state for `GetSubstitution`: scanning normally, just after a
`$`, or after `$d` with first digit `d` of value `v1` (the lookahead for a
two-digit group reference). -/
inductive ExpandState where
  | scan
  | afterDollar
  | afterDigit (d : Char) (v1 : Nat)

/-- ECMAScript `GetSubstitution` over the replacement template as a
character-by-character scanner, covering the forms the repository's
templates use: `$$`, `$&`, and `$n`/`$nn` group references (an out-of-range
reference stays literal; a trailing lone `$` is literal). -/
def expandGo (ng : Nat) (caps : Caps) (matched : List Char) :
    ExpandState → List Char → List Char
  | .scan, [] => []
  | .scan, c :: rest =>
    if c = '$' then expandGo ng caps matched .afterDollar rest
    else c :: expandGo ng caps matched .scan rest
  | .afterDollar, [] => ['$']
  | .afterDollar, d :: rest =>
    if d = '$' then '$' :: expandGo ng caps matched .scan rest
    else if d = '&' then matched ++ expandGo ng caps matched .scan rest
    else
      match digitVal d with
      | some v1 => expandGo ng caps matched (.afterDigit d v1) rest
      | none => '$' :: d :: expandGo ng caps matched .scan rest
  | .afterDigit d v1, [] =>
    if 1 ≤ v1 ∧ v1 ≤ ng then capRef caps v1 else ['$', d]
  | .afterDigit d v1, d2 :: rest =>
    match digitVal d2 with
    | some v2 =>
      if 1 ≤ 10 * v1 + v2 ∧ 10 * v1 + v2 ≤ ng then
        capRef caps (10 * v1 + v2) ++ expandGo ng caps matched .scan rest
      else if 1 ≤ v1 ∧ v1 ≤ ng then
        capRef caps v1 ++ d2 :: expandGo ng caps matched .scan rest
      else '$' :: d :: d2 :: expandGo ng caps matched .scan rest
    | none =>
      if 1 ≤ v1 ∧ v1 ≤ ng then
        capRef caps v1 ++
          (if d2 = '$' then expandGo ng caps matched .afterDollar rest
           else d2 :: expandGo ng caps matched .scan rest)
      else
        '$' :: d ::
          (if d2 = '$' then expandGo ng caps matched .afterDollar rest
           else d2 :: expandGo ng caps matched .scan rest)

/-- Models `GetSubstitution` on a whole template. -/
def expandTemplate (ng : Nat) (caps : Caps) (matched : List Char)
    (tmpl : List Char) : List Char :=
  expandGo ng caps matched .scan tmpl

/-- Models `s.replace(regex, template)` for a non-global regex: replaces the first
match, substituting group references in the template; a string with no match
is returned unchanged. -/
def regexReplace (r : Regex) (ng : Nat) (inp tmpl : List Char) : List Char :=
  match firstMatch inp r with
  | none => inp
  | some m =>
    inp.take m.1 ++
      expandTemplate ng m.2.2 ((inp.drop m.1).take (m.2.1 - m.1)) tmpl ++
      inp.drop m.2.1

/-! ## Filename utilities (`convex/utils/filenameUtils.ts`, source in
`src/CONVEX_SETUP.md`) -/

/-- Models `String.prototype.split(sep)` on a single-character separator: always a
non-empty list of segments. -/
def splitOnChar (sep : Char) : List Char → List (List Char)
  | [] => [[]]
  | c :: rest =>
    match splitOnChar sep rest with
    | [] => [[c]]
    | h :: t => if c = sep then [] :: h :: t else (c :: h) :: t

/-- Models `replacePattern.replace(/TIMESTAMP/g, timestamp)`: every occurrence of
the literal token `TIMESTAMP` is replaced by `ts`; the inserted text is not
rescanned. -/
def replaceTimestampAux (ts : List Char) : List Char → List Char
  | 'T' :: 'I' :: 'M' :: 'E' :: 'S' :: 'T' :: 'A' :: 'M' :: 'P' :: rest =>
    ts ++ replaceTimestampAux ts rest
  | c :: rest => c :: replaceTimestampAux ts rest
  | [] => []

/-- The first lines of `generateOutputFilename`: when the input starts with
`"http"`, take the last `/`-segment before any `?` query string (or
`"image"` when that is empty), otherwise use the input itself. -/
def extractWorkingName (originalName : List Char) : List Char :=
  if "http".data.isPrefixOf originalName then
    let segment :=
      ((splitOnChar '?' ((splitOnChar '/' originalName).getLastD [])).headD [])
    if segment = [] then "image".data else segment
  else originalName

/-- True exactly when `/\.(png|jpg|jpeg|webp|gif)$/i.test(s)` is: the
lower-cased name ends in a dot plus one of the five extensions. -/
def endsWithL (suffix l : List Char) : Bool :=
  decide (l.drop (l.length - suffix.length) = suffix)

/-- The extension test of `generateOutputFilename` step 2. -/
def hasImageExtension (name : List Char) : Bool :=
  [".png", ".jpg", ".jpeg", ".webp", ".gif"].any
    (fun ext => endsWithL ext.data (name.map Char.toLower))

/-- The matched branch of `generateOutputFilename`: substitute the literal
token `TIMESTAMP` in the replace template by the epoch timestamp **first**,
only then apply the regex capture-group substitution with the resulting
template, and finally append `.png` unless a known image extension is
already present. -/
def substitutedOutput (now : Nat) (filename : List Char) (r : Regex)
    (ng : Nat) (replacePattern : String) : List Char :=
  let timestamp := (Nat.repr now).data
  let preparedReplacement := replaceTimestampAux timestamp replacePattern.data
  let newName := regexReplace r ng filename preparedReplacement
  if hasImageExtension newName then newName else newName ++ ".png".data

/-- The order-flipped substitution: regex group substitution on the raw
template first, `TIMESTAMP` replacement afterwards.  Only used to show the
two passes do not commute, making the order the code fixes observable. -/
def substitutedGroupsFirst (now : Nat) (filename : List Char) (r : Regex)
    (ng : Nat) (replacePattern : String) : List Char :=
  let timestamp := (Nat.repr now).data
  let newName :=
    replaceTimestampAux timestamp
      (regexReplace r ng filename replacePattern.data)
  if hasImageExtension newName then newName else newName ++ ".png".data

/-- Models `generateOutputFilename(originalName, findPattern, replacePattern)` from
`filenameUtils.ts`, with `Date.now()` passed explicitly as `now`:

1. extract the working name from a URL-looking input;
2. when both patterns are non-empty (JavaScript truthiness) try to compile
   the find pattern — a throw is caught and falls through to the default —
   and if it matches, produce `substitutedOutput`;
3. otherwise return the default `localized_<timestamp>.png`. -/
def generateOutputFilename (now : Nat)
    (originalName findPattern replacePattern : String) : String :=
  let filename := extractWorkingName originalName.data
  let viaRegex : Option (List Char) :=
    if findPattern ≠ "" ∧ replacePattern ≠ "" then
      match parseRegex findPattern with
      | none => none
      | some (r, ng) =>
        if regexTest filename r then
          some (substitutedOutput now filename r ng replacePattern)
        else none
    else none
  match viaRegex with
  | some result => result.asString
  | none => "localized_" ++ Nat.repr now ++ ".png"

/-- The order-flipped variant of `generateOutputFilename`, built on
`substitutedGroupsFirst`. -/
def generateOutputFilenameGroupsFirst (now : Nat)
    (originalName findPattern replacePattern : String) : String :=
  let filename := extractWorkingName originalName.data
  let viaRegex : Option (List Char) :=
    if findPattern ≠ "" ∧ replacePattern ≠ "" then
      match parseRegex findPattern with
      | none => none
      | some (r, ng) =>
        if regexTest filename r then
          some (substitutedGroupsFirst now filename r ng replacePattern)
        else none
    else none
  match viaRegex with
  | some result => result.asString
  | none => "localized_" ++ Nat.repr now ++ ".png"

/-- The remainder of `l` after the first occurrence of `pat`, or `none` when
`pat` does not occur. -/
def afterSubstr (pat : List Char) : List Char → Option (List Char)
  | [] => if pat = [] then some [] else none
  | c :: rest =>
    if pat.isPrefixOf (c :: rest) then some ((c :: rest).drop pat.length)
    else afterSubstr pat rest

/-- Models `getFilenameFromUrl` from `filenameUtils.ts`: parse the URL, split its
pathname on `/` and return the last segment, with `"image"` both for an
empty segment and for a URL that fails to parse.  `new URL` is modelled for
`scheme://host[/path][?query][#hash]` inputs; anything without `://` is
treated as a parse failure. -/
def getFilenameFromUrl (url : String) : String :=
  match afterSubstr "://".data url.data with
  | none => "image"
  | some rest =>
    let pathname :=
      (rest.dropWhile (fun c => c ≠ '/')).takeWhile
        (fun c => c ≠ '?' ∧ c ≠ '#')
    let filename := (splitOnChar '/' pathname).getLastD []
    if filename = [] then "image" else filename.asString

/-! ## Orchestrator (`src/convex/processing.ts`) -/

/-- JavaScript truthiness of `config.addOwnLogo && config.ownLogoData`: the
logo is attached only when the flag is set and the payload is a present,
non-null, non-empty string. -/
def logoTruthy (addOwnLogo : Bool) (ownLogoData : Option (Option String)) :
    Bool :=
  addOwnLogo &&
    match ownLogoData with
    | some (some d) => d ≠ ""
    | _ => false

/-- Models `buildPrompt(config)` from `src/convex/processing.ts`: the base template
plus the conditional branding clauses. -/
def buildPrompt (config : ProcessingConfig) : String :=
  let brandingInstructions :=
    (if config.removeBranding then
      "\n    - REMOVE BRANDING: Identify and scrub any existing logos, text, or watermarks from the original image."
     else "") ++
    (if config.addBrandingColors then
      "\n    - BRANDING COLORS: Subtly adjust the color palette using " ++
        config.brandingColor ++ " as a key accent color."
     else "") ++
    (if logoTruthy config.addOwnLogo config.ownLogoData then
      "\n    - INSERT LOGO: Composite the provided logo into the scene realistically."
     else "")
  "\n    Generate a new version of this image located in " ++
    config.targetCountry ++
    ", keeping the same context but adapting the visual elements.\n\n" ++
    "    CORE INSTRUCTIONS:\n" ++
    "    1. CONTEXT: Maintain the original scenario but transplanted to " ++
    config.targetCountry ++ ".\n" ++
    "    2. FLEXIBILITY: Change people, geometry, environment, and atmosphere to be authentic.\n" ++
    "       - PEOPLE: Update ethnicity, fashion, and appearance.\n" ++
    "       - GEOMETRY & ENVIRONMENT: Redesign architecture and background.\n" ++
    "       - ATMOSPHERE: Adapt lighting and mood.\n    \n" ++
    "    BRANDING ADJUSTMENTS:" ++ brandingInstructions ++ "\n\n" ++
    "    The output should be a distinct new variation that tells the same story in a different cultural setting.\n    \n" ++
    "    Additional Context: " ++ config.additionalContext ++ "\n  "

/-- One part of a Gemini candidate's content; `inlineData` holds the
`part.inlineData.data` payload when the part carries inline data (a part
whose `inlineData` or `data` is missing is `none`). -/
structure GeminiPart where
  inlineData : Option String
deriving DecidableEq, Repr

/-- A Gemini candidate: `finishReason` and `content?.parts`. -/
structure GeminiCandidate where
  finishReason : Option String := none
  contentParts : Option (List GeminiPart) := none
deriving DecidableEq, Repr

/-- A Gemini response: optional candidates and optional usage counters. -/
structure GeminiResponse where
  candidates : Option (List GeminiCandidate) := none
  promptTokenCount : Option Nat := none
  candidatesTokenCount : Option Nat := none
  totalTokenCount : Option Nat := none
deriving DecidableEq, Repr

/-- The orchestrator's environment: the outcome each external effect would
have during this run.  `Except.error` is a thrown exception's message. -/
structure ProcEnv where
  /-- Models `fetchImageAsBase64(job.sourceUrl)`: base64 bytes and MIME type. -/
  fetchResult : Except String (String × String)
  /-- Models `process.env.GEMINI_API_KEY`. -/
  apiKey : Option String
  /-- Models `ai.models.generateContent(...)`. -/
  geminiResult : Except String GeminiResponse
  /-- Models `ctx.storage.store(blob)`. -/
  storeResult : Except String Nat
  /-- Models `ctx.storage.getUrl(fileId)`. -/
  urlForFile : Nat → Option String

/-- The `try` block of `processJob` (steps 3–8 plus the storage URL check):
fetch, key check, prompt build, Gemini call, response validation, filename
derivation, artifact store.  Returns the data `setCompleted` receives, or
the message of the first exception. -/
def runProcessSteps (env : ProcEnv) (now : Nat) (job : Job) :
    Except String (Nat × String × String × Nat × Nat × Nat) := do
  let _fetched ← env.fetchResult
  let _apiKey ←
    match env.apiKey with
    | some k =>
      if k = "" then
        Except.error "GEMINI_API_KEY environment variable not set"
      else Except.ok k
    | none => Except.error "GEMINI_API_KEY environment variable not set"
  let _prompt := buildPrompt job.config
  let response ← env.geminiResult
  let usagePrompt := response.promptTokenCount.getD 0
  let usageCandidate := response.candidatesTokenCount.getD 0
  let usageTotal := response.totalTokenCount.getD 0
  let candidate ←
    match response.candidates.bind List.head? with
    | some c => Except.ok c
    | none => Except.error "No candidates returned from Gemini"
  let _ ←
    match candidate.finishReason with
    | some r =>
      if r ≠ "" ∧ r ≠ "STOP" then
        Except.error ("Generation stopped: " ++ r)
      else Except.ok ()
    | none => Except.ok ()
  let responseParts ←
    match candidate.contentParts with
    | some ps =>
      if ps = [] then Except.error "No content parts in response"
      else Except.ok ps
    | none => Except.error "No content parts in response"
  let generatedBase64 ←
    match responseParts.findSome? (fun p =>
        match p.inlineData with
        | some d => if d ≠ "" then some d else none
        | none => none) with
    | some d => Except.ok d
    | none => Except.error "No image data in response"
  let originalFilename := getFilenameFromUrl job.sourceUrl
  let generatedFileName :=
    generateOutputFilename now originalFilename
      job.config.filenameFindPattern job.config.filenameReplacePattern
  let _ := generatedBase64
  let fileId ← env.storeResult
  let fileUrl ←
    match env.urlForFile fileId with
    | some u =>
      if u = "" then Except.error "Failed to get storage URL"
      else Except.ok u
    | none => Except.error "Failed to get storage URL"
  return (fileId, generatedFileName, fileUrl, usagePrompt, usageCandidate,
    usageTotal)

/-- Models `processJob` (`src/convex/processing.ts`): load the job (a missing job
throws — the only statement outside the `try`/`catch` besides
`setProcessing`), mark it processing, run steps 3–8, and record
`setCompleted` on success or `setFailed(error.message || "Unknown error")`
on any caught exception.  The patch branches for a vanished job are
unreachable when the job exists. -/
def processJob (env : ProcEnv) (now : Nat) (s : JobsStore) (jobId : Nat) :
    Except String JobsStore :=
  match s.get jobId with
  | none => .error "Job not found"
  | some job =>
    match setJobProcessing s jobId with
    | none => .error "patched document does not exist"
    | some s1 =>
      match runProcessSteps env now job with
      | .ok (fileId, fname, fileUrl, pt, ct, tt) =>
        match jobsSetCompleted s1 now jobId fileId fname fileUrl
            (some pt) (some ct) (some tt) with
        | some s2 => .ok s2
        | none => .error "patched document does not exist"
      | .error e =>
        match setJobFailed s1 now jobId
            (if e = "" then "Unknown error" else e) with
        | some s2 => .ok s2
        | none => .error "patched document does not exist"

/-! ## Store lemmas -/

/-- Ids of existing rows are below `nextId` — maintained by every insert and
patch, and used to know that a freshly inserted row is found by its id. -/
def JobsStore.WF (s : JobsStore) : Prop :=
  ∀ r ∈ s.rows, r.1 < s.nextId

instance (s : JobsStore) : Decidable s.WF := by
  unfold JobsStore.WF
  infer_instance

theorem find?_append_of_none {α : Type} (p : α → Bool) :
    ∀ l1 l2 : List α, l1.find? p = none →
      (l1 ++ l2).find? p = l2.find? p
  | [], _, _ => rfl
  | a :: l1, l2, h => by
    have ha : ¬p a = true := by
      intro hc
      rw [List.find?_cons_of_pos _ hc] at h
      exact Option.noConfusion h
    rw [List.find?_cons_of_neg _ ha] at h
    simp only [List.cons_append, List.find?_cons_of_neg _ ha]
    exact find?_append_of_none p l1 l2 h

theorem find?_map_selective {α : Type} (jid : Nat) (f : α → α) :
    ∀ l : List (Nat × α),
      ((l.map (fun r => if r.1 = jid then (r.1, f r.2) else r)).find?
          (fun r => r.1 = jid)) =
        (l.find? (fun r => r.1 = jid)).map (fun r => (r.1, f r.2))
  | [] => rfl
  | a :: l => by
    by_cases h : a.1 = jid
    · simp [h]
    · simp [h, find?_map_selective jid f l]

/-- A patch on a present id succeeds and rewrites exactly that row as seen
through `get`. -/
theorem JobsStore.patch_get (s : JobsStore) (jid : Nat) (f : Job → Job)
    (h : (s.get jid).isSome) :
    ∃ s', s.patch jid f = some s' ∧
      s'.get jid = (s.get jid).map f ∧
      s'.nextId = s.nextId ∧ (s.WF → s'.WF) := by
  have hany : s.rows.any (fun r => r.1 = jid) = true := by
    rcases Option.isSome_iff_exists.mp h with ⟨j, hj⟩
    unfold JobsStore.get at hj
    rcases Option.map_eq_some'.mp hj with ⟨r, hr, _⟩
    have := List.mem_of_find?_eq_some hr
    have hp := List.find?_some hr
    exact List.any_eq_true.mpr ⟨r, this, hp⟩
  refine ⟨⟨s.rows.map (fun r => if r.1 = jid then (r.1, f r.2) else r), s.nextId⟩, ?_, ?_, rfl, ?_⟩
  · unfold JobsStore.patch
    rw [if_pos hany]
  · unfold JobsStore.get
    simp only [find?_map_selective jid f s.rows]
    cases s.rows.find? (fun r => r.1 = jid) <;> simp
  · intro hWF r hr
    simp only [List.mem_map] at hr
    rcases hr with ⟨r0, hr0, hr0e⟩
    have hlt := hWF r0 hr0
    by_cases hid : r0.1 = jid
    · rw [if_pos hid] at hr0e
      subst hr0e
      simpa using hlt
    · rw [if_neg hid] at hr0e
      subst hr0e
      exact hlt

/-- A freshly inserted row is found by its id in a well-formed store. -/
theorem JobsStore.get_insert_fresh (s : JobsStore) (j : Job) (hWF : s.WF) :
    (s.insert j).2.get (s.insert j).1 = some j := by
  unfold JobsStore.insert JobsStore.get
  have hnone : s.rows.find? (fun r => r.1 = s.nextId) = none := by
    apply List.find?_eq_none.mpr
    intro r hr
    have := hWF r hr
    simp
    omega
  simp [find?_append_of_none _ _ _ hnone]

/-- Inserting preserves well-formedness. -/
theorem JobsStore.insert_WF (s : JobsStore) (j : Job) (hWF : s.WF) :
    (s.insert j).2.WF := by
  intro r hr
  unfold JobsStore.insert at hr
  simp only [List.mem_append, List.mem_singleton] at hr
  rcases hr with hr | hr
  · have := hWF r hr
    simp only [JobsStore.insert]
    omega
  · subst hr
    simp [JobsStore.insert]

/-- Folding `+ (totalTokens ?? 0)` is summing that map. -/
theorem foldl_tokens_eq_sum :
    ∀ (l : List Job) (a : Nat),
      l.foldl (fun sum j => sum + j.totalTokens.getD 0) a =
        a + (l.map (fun j => j.totalTokens.getD 0)).sum
  | [], a => by simp
  | j :: l, a => by
    simp [foldl_tokens_eq_sum l (a + j.totalTokens.getD 0)]
    omega

/-- When every non-completed job has no `totalTokens`, the sum over all jobs
agrees with the sum over completed jobs only. -/
theorem sum_tokens_filter_completed :
    ∀ l : List Job,
      (∀ j ∈ l, j.status ≠ .completed → j.totalTokens = none) →
      (l.map (fun j => j.totalTokens.getD 0)).sum =
        ((l.filter (fun j => j.status = .completed)).map
          (fun j => j.totalTokens.getD 0)).sum
  | [], _ => rfl
  | j :: l, h => by
    have ih := sum_tokens_filter_completed l (fun x hx => h x (by simp [hx]))
    by_cases hj : j.status = .completed
    · simp [hj, ih]
    · have : j.totalTokens = none := h j (by simp) hj
      simp [hj, this, ih]

/-! ## Fixtures for concrete counterexamples and witnesses -/

/-- A minimal valid config snapshot. -/
def demoConfig : ProcessingConfig where
  targetCountry := "Japan"
  additionalContext := ""
  removeBranding := false
  addBrandingColors := false
  brandingColor := "#ff0000"
  addOwnLogo := false
  filenameFindPattern := ""
  filenameReplacePattern := ""

/-! ## C10 — `listJobs` with both a batch id and a status filter -/

/-- A store holding one `pending` job created with `batchId = ""` — a value
`createJob` accepts but the `if (args.batchId)` truthiness test treats as
absent. -/
def c10Store : JobsStore :=
  (createJob ⟨[], 0⟩ 1 "http://h/a.jpg" "a.jpg" demoConfig none (some "")).2

/-- C10, counterexample: supplying `batchId = ""` together with a status
filter does change the result — the empty string is falsy, so the status
branch runs; with the batch id alone the chronological branch runs
instead. -/
theorem listJobs_c10_cex :
    listJobs c10Store { status := some .completed, batchId := some "" } ≠
      listJobs c10Store { batchId := some "" } := by decide

/-- C10 (amended): when the supplied batch id is non-empty, the status
argument has no effect on `listJobs` — items, total, limit and offset are
those of the same query without the status filter. -/
theorem listJobs_c10 (s : JobsStore) (args : ListJobsArgs) (b : String)
    (hb : args.batchId = some b) (hne : b ≠ "") :
    listJobs s args = listJobs s { args with status := none } := by
  obtain ⟨lim, off, st, bid⟩ := args
  change bid = some b at hb
  subst hb
  simp [listJobs, hne]

/-- C10 witness: the amended theorem at a concrete store and query. -/
theorem listJobs_c10_w :
    listJobs c10Store { status := some .completed, batchId := some "x" } =
      listJobs c10Store { batchId := some "x" } :=
  listJobs_c10 c10Store { status := some .completed, batchId := some "x" }
    "x" rfl (by decide)

/-! ## C1 — `getBatchSummary` token totals -/

/-- The quantity C1 says `getBatchSummary` returns: `totalTokens` summed
over the batch's `completed` jobs only, every other job contributing 0. -/
def completedTokensSum (s : JobsStore) (batchId : String) : Nat :=
  (((s.byBatchId batchId).filter (fun j => j.status = .completed)).map
    (fun j => j.totalTokens.getD 0)).sum

/-- A completed job in batch `"b"` with 7 total tokens. -/
def c1JobCompleted : Job :=
  { sourceUrl := "http://h/a.jpg", config := demoConfig, status := .completed,
    batchId := some "b", totalTokens := some 7,
    generatedFileName := some "out.png", generatedUrl := some "u",
    createdAt := 1, completedAt := some 2 }

/-- A failed job in batch `"b"` that still holds 5 total tokens — e.g. after
`setJobCompleted` (which writes `totalTokens`) is followed by
`setJobFailed` (which does not clear it). -/
def c1JobFailed : Job :=
  { sourceUrl := "http://h/b.jpg", config := demoConfig, status := .failed,
    batchId := some "b", totalTokens := some 5, error := some "boom",
    createdAt := 1, completedAt := some 3 }

/-- Batch `"b"`: one completed job (7 tokens) and one failed job (5). -/
def c1Store : JobsStore := ⟨[(0, c1JobCompleted), (1, c1JobFailed)], 2⟩

/-- C1, counterexample: the summary's `totalTokens` is 12 — the failed job's
5 tokens are counted — while the claimed completed-only sum is 7. -/
theorem getBatchSummary_tokens_cex :
    (getBatchSummary c1Store "b").totalTokens = 12 ∧
    completedTokensSum c1Store "b" = 7 ∧
    (getBatchSummary c1Store "b").totalTokens ≠
      completedTokensSum c1Store "b" := by decide

/-- C1 (amended): `totalTokens` of a batch summary is the sum of
`totalTokens ?? 0` over **all** jobs of the batch, whatever their status;
it coincides with the completed-only sum exactly when no non-completed job
carries a `totalTokens` value. -/
theorem getBatchSummary_tokens (s : JobsStore) (b : String) :
    (getBatchSummary s b).totalTokens =
      ((s.byBatchId b).map (fun j => j.totalTokens.getD 0)).sum ∧
    ((∀ j ∈ s.byBatchId b, j.status ≠ .completed → j.totalTokens = none) →
      (getBatchSummary s b).totalTokens = completedTokensSum s b) := by
  constructor
  · simp [getBatchSummary, foldl_tokens_eq_sum]
  · intro h
    simp [getBatchSummary, completedTokensSum, foldl_tokens_eq_sum,
      sum_tokens_filter_completed _ h]

/-- C1 witness: a batch whose failed job has no token count, where the
all-jobs sum and the completed-only sum agree. -/
theorem getBatchSummary_tokens_w :
    (getBatchSummary ⟨[(0, c1JobCompleted)], 1⟩ "b").totalTokens =
      ((JobsStore.byBatchId ⟨[(0, c1JobCompleted)], 1⟩ "b").map
        (fun j => j.totalTokens.getD 0)).sum ∧
    (getBatchSummary ⟨[(0, c1JobCompleted)], 1⟩ "b").totalTokens =
      completedTokensSum ⟨[(0, c1JobCompleted)], 1⟩ "b" :=
  ⟨(getBatchSummary_tokens ⟨[(0, c1JobCompleted)], 1⟩ "b").1,
   (getBatchSummary_tokens ⟨[(0, c1JobCompleted)], 1⟩ "b").2 (by decide)⟩

/-! ## C2 — per-record field invariants -/

/-- The per-record invariant that actually holds along the intended
lifecycle: `error` set iff failed; the artifact **URL** set iff completed;
`completedAt` set iff terminal; the output filename always set (initialised
to the source name at creation, overwritten on completion); the storage file
id never set by these four operations. -/
def JobRecordInv (j : Job) : Prop :=
  (j.error ≠ none ↔ j.status = .failed) ∧
  (j.generatedUrl ≠ none ↔ j.status = .completed) ∧
  (j.completedAt ≠ none ↔ (j.status = .completed ∨ j.status = .failed)) ∧
  j.generatedFileName ≠ none ∧
  j.generatedFileId = none

/-- The store after a single `createJob` on an empty store. -/
def c2Store : JobsStore :=
  (createJob ⟨[], 0⟩ 5 "http://h/a.jpg" "a.jpg" demoConfig none none).2

/-- C2, counterexample: a job reachable by `createJob` alone has its output
filename set (`generatedFileName = sourceName`) while its status is
`pending`, refuting “the output filename is set iff status = completed”. -/
theorem job_invariants_cex :
    (getJob c2Store 0).map (fun j => j.generatedFileName) =
      some (some "a.jpg") ∧
    (getJob c2Store 0).map (fun j => j.status) = some JobStatus.pending ∧
    (some "a.jpg" : Option String) ≠ none ∧
    JobStatus.pending ≠ JobStatus.completed := by decide

/-- C2 (amended): along the intended lifecycle — `createJob`, then
`setJobProcessing`, then one of `setJobCompleted`/`setJobFailed` — every
observed record satisfies `JobRecordInv`: `error` set iff failed, artifact
URL set iff completed, `completedAt` set iff terminal, the output filename
always set, and `generatedFileId` never set by these operations. -/
theorem job_invariants (s : JobsStore) (hWF : s.WF) (now n2 n3 : Nat)
    (url name urlC fnameC err : String) (cfg : ProcessingConfig)
    (pn bid : Option String) (pt ct tt : Option Nat) :
    let c := createJob s now url name cfg pn bid
    ∃ j0 s2 j2,
      getJob c.2 c.1 = some j0 ∧ JobRecordInv j0 ∧ j0.status = .pending ∧
      setJobProcessing c.2 c.1 = some s2 ∧
      getJob s2 c.1 = some j2 ∧ JobRecordInv j2 ∧ j2.status = .processing ∧
      (∃ s3 j3, setJobCompleted s2 n2 c.1 urlC fnameC pt ct tt = some s3 ∧
        getJob s3 c.1 = some j3 ∧ JobRecordInv j3 ∧ j3.status = .completed) ∧
      (∃ s4 j4, setJobFailed s2 n3 c.1 err = some s4 ∧
        getJob s4 c.1 = some j4 ∧ JobRecordInv j4 ∧ j4.status = .failed) := by
  intro c
  have h0 : getJob c.2 c.1 = some
      { sourceUrl := url, config := cfg, presetName := pn, batchId := bid,
        status := .pending, generatedFileName := some name,
        createdAt := now } :=
    JobsStore.get_insert_fresh s _ hWF
  obtain ⟨s2, hp2, hg2, _, _⟩ :=
    JobsStore.patch_get c.2 c.1 (fun j => { j with status := .processing })
      (by rw [show JobsStore.get c.2 c.1 = getJob c.2 c.1 from rfl, h0]; rfl)
  rw [show JobsStore.get c.2 c.1 = getJob c.2 c.1 from rfl, h0] at hg2
  have hg2' : getJob s2 c.1 = some
      { sourceUrl := url, config := cfg, presetName := pn, batchId := bid,
        status := .processing, generatedFileName := some name,
        createdAt := now } := hg2
  obtain ⟨s3, hp3, hg3, _, _⟩ :=
    JobsStore.patch_get s2 c.1 (fun j =>
      { j with
        status := .completed, generatedUrl := some urlC,
        generatedFileName := some fnameC, promptTokens := pt,
        candidateTokens := ct, totalTokens := tt, completedAt := some n2 })
      (by rw [show JobsStore.get s2 c.1 = getJob s2 c.1 from rfl, hg2']; rfl)
  rw [show JobsStore.get s2 c.1 = getJob s2 c.1 from rfl, hg2'] at hg3
  obtain ⟨s4, hp4, hg4, _, _⟩ :=
    JobsStore.patch_get s2 c.1 (fun j =>
      { j with
        status := .failed, error := some err, completedAt := some n3 })
      (by rw [show JobsStore.get s2 c.1 = getJob s2 c.1 from rfl, hg2']; rfl)
  rw [show JobsStore.get s2 c.1 = getJob s2 c.1 from rfl, hg2'] at hg4
  refine ⟨_, s2, _, h0, ?_, rfl, hp2, hg2', ?_, rfl, ?_, ?_⟩
  · simp [JobRecordInv]
  · simp [JobRecordInv]
  · exact ⟨s3, _, hp3, hg3, by simp [JobRecordInv], rfl⟩
  · exact ⟨s4, _, hp4, hg4, by simp [JobRecordInv], rfl⟩

/-- C2 witness: the amended lifecycle invariants at a concrete job. -/
theorem job_invariants_w :
    let c := createJob ⟨[], 0⟩ 5 "http://h/a.jpg" "a.jpg" demoConfig none none
    ∃ j0 s2 j2,
      getJob c.2 c.1 = some j0 ∧ JobRecordInv j0 ∧ j0.status = .pending ∧
      setJobProcessing c.2 c.1 = some s2 ∧
      getJob s2 c.1 = some j2 ∧ JobRecordInv j2 ∧ j2.status = .processing ∧
      (∃ s3 j3, setJobCompleted s2 6 c.1 "http://h/out" "out.png" none none
          none = some s3 ∧
        getJob s3 c.1 = some j3 ∧ JobRecordInv j3 ∧ j3.status = .completed) ∧
      (∃ s4 j4, setJobFailed s2 7 c.1 "boom" = some s4 ∧
        getJob s4 c.1 = some j4 ∧ JobRecordInv j4 ∧ j4.status = .failed) :=
  job_invariants ⟨[], 0⟩ (by decide) 5 6 7 "http://h/a.jpg" "a.jpg"
    "http://h/out" "out.png" "boom" demoConfig none none none none none

/-! ## C3 — status transition discipline -/

/-- Store after `createJob` on the empty store. -/
def c3Store1 : JobsStore :=
  (createJob ⟨[], 0⟩ 1 "http://h/a.jpg" "a.jpg" demoConfig none none).2

/-- Then `setJobCompleted` straight from `pending`. -/
def c3Store2 : JobsStore :=
  (setJobCompleted c3Store1 2 0 "http://h/out" "out.png" none none none).getD
    ⟨[], 0⟩

/-- Then `setJobProcessing` applied to the already-completed job. -/
def c3Store3 : JobsStore := (setJobProcessing c3Store2 0).getD ⟨[], 0⟩

/-- C3, counterexample: the mutations carry no guard, so the op sequence
`createJob; setJobCompleted; setJobProcessing` is accepted and the observed
status sequence `pending, completed, processing` both skips `processing` on
the way in and leaves the terminal `completed` — it is a subsequence of
neither canonical chain. -/
theorem status_machine_cex :
    (getJob c3Store1 0).map (fun j => j.status) = some JobStatus.pending ∧
    (getJob c3Store2 0).map (fun j => j.status) = some JobStatus.completed ∧
    (getJob c3Store3 0).map (fun j => j.status) = some JobStatus.processing ∧
    ¬(List.Sublist [JobStatus.pending, .completed, .processing]
        [JobStatus.pending, .processing, .completed] ∨
      List.Sublist [JobStatus.pending, .completed, .processing]
        [JobStatus.pending, .processing, .failed]) := by decide

/-- C3 (amended): the job store itself does not guard transitions; but when
the operations are applied in the orchestrator's order — `setJobProcessing`
on a pending job, then exactly one of `setJobCompleted`/`setJobFailed` —
the observed status sequence is exactly `pending → processing → completed`
or `pending → processing → failed`, hence a subsequence of the canonical
chains. -/
theorem status_machine (s : JobsStore) (jid : Nat) (j : Job)
    (h : getJob s jid = some j) (hp : j.status = .pending)
    (n2 n3 : Nat) (urlC fnameC err : String) (pt ct tt : Option Nat) :
    ∃ s2 j2, setJobProcessing s jid = some s2 ∧ getJob s2 jid = some j2 ∧
      [j.status, j2.status] = [.pending, .processing] ∧
      (∃ s3 j3, setJobCompleted s2 n2 jid urlC fnameC pt ct tt = some s3 ∧
        getJob s3 jid = some j3 ∧
        [j.status, j2.status, j3.status] =
          [.pending, .processing, .completed] ∧
        List.Sublist [j.status, j2.status, j3.status]
          [JobStatus.pending, .processing, .completed]) ∧
      (∃ s4 j4, setJobFailed s2 n3 jid err = some s4 ∧
        getJob s4 jid = some j4 ∧
        [j.status, j2.status, j4.status] =
          [.pending, .processing, .failed] ∧
        List.Sublist [j.status, j2.status, j4.status]
          [JobStatus.pending, .processing, .failed]) := by
  obtain ⟨s2, hp2, hg2, _, _⟩ :=
    JobsStore.patch_get s jid (fun j => { j with status := .processing })
      (by rw [show JobsStore.get s jid = getJob s jid from rfl, h]; rfl)
  rw [show JobsStore.get s jid = getJob s jid from rfl, h] at hg2
  obtain ⟨s3, hp3, hg3, _, _⟩ :=
    JobsStore.patch_get s2 jid (fun j =>
      { j with
        status := .completed, generatedUrl := some urlC,
        generatedFileName := some fnameC, promptTokens := pt,
        candidateTokens := ct, totalTokens := tt, completedAt := some n2 })
      (by rw [hg2]; rfl)
  rw [hg2] at hg3
  obtain ⟨s4, hp4, hg4, _, _⟩ :=
    JobsStore.patch_get s2 jid (fun j =>
      { j with
        status := .failed, error := some err, completedAt := some n3 })
      (by rw [hg2]; rfl)
  rw [hg2] at hg4
  refine ⟨s2, _, hp2, hg2, by simp [hp], ?_, ?_⟩
  · exact ⟨s3, _, hp3, hg3, by simp [hp], by simp [hp]⟩
  · exact ⟨s4, _, hp4, hg4, by simp [hp], by simp [hp]⟩

/-- C3 witness: the amended discipline at a concrete pending job. -/
theorem status_machine_w :
    ∃ s2 j2, setJobProcessing c3Store1 0 = some s2 ∧
      getJob s2 0 = some j2 ∧
      [JobStatus.pending, j2.status] = [.pending, .processing] ∧
      (∃ s3 j3, setJobCompleted s2 2 0 "http://h/out" "out.png" none none
          none = some s3 ∧
        getJob s3 0 = some j3 ∧
        [JobStatus.pending, j2.status, j3.status] =
          [.pending, .processing, .completed] ∧
        List.Sublist [JobStatus.pending, j2.status, j3.status]
          [JobStatus.pending, .processing, .completed]) ∧
      (∃ s4 j4, setJobFailed s2 3 0 "boom" = some s4 ∧
        getJob s4 0 = some j4 ∧
        [JobStatus.pending, j2.status, j4.status] =
          [.pending, .processing, .failed] ∧
        List.Sublist [JobStatus.pending, j2.status, j4.status]
          [JobStatus.pending, .processing, .failed]) := by
  have h : getJob c3Store1 0 = some
      { sourceUrl := "http://h/a.jpg", config := demoConfig,
        presetName := none, batchId := none, status := .pending,
        generatedFileName := some "a.jpg", createdAt := 1 } := by decide
  exact status_machine c3Store1 0 _ h rfl 2 3 "http://h/out" "out.png" "boom"
    none none none

/-! ## C8 — duplicate preset names -/

/-- C8: after a successful `createPreset(X, config)`, a second
`createPreset(X, config')` throws the duplicate-name error — performing no
insert, since a throwing Convex mutation writes nothing — and the store
still holds exactly the first preset for `X`, its config untouched. -/
theorem preset_duplicate (s : PresetsStore) (now now' : Nat) (name : String)
    (cfg cfg' : ProcessingConfig) (i : Nat) (s1 : PresetsStore)
    (h : createPreset s now name cfg = .ok (i, s1)) :
    createPreset s1 now' name cfg' =
      .error ("Preset with name \x22" ++ name ++ "\x22 already exists") ∧
    s1.rows.filter (fun r => r.2.name = name) =
      [(i, Preset.ofConfig name cfg now)] := by
  unfold createPreset at h
  split at h
  · exact absurd h (by simp)
  next hN =>
    split at h
    · exact absurd h (by simp)
    · exact absurd h (by simp)
    next hu =>
      have hfil : s.rows.filter (fun r => r.2.name = name) = [] := by
        unfold PresetsStore.uniqueByName at hu
        split at hu
        · assumption
        · exact absurd hu (by simp)
        · exact absurd hu (by simp)
      obtain ⟨hi, hs⟩ := Prod.mk.inj (Except.ok.inj h)
      have hone : s1.rows.filter (fun r => r.2.name = name) =
          [(i, Preset.ofConfig name cfg now)] := by
        rw [← hs, ← hi]
        simp [List.filter_append, hfil, Preset.ofConfig]
      refine ⟨?_, hone⟩
      unfold createPreset
      rw [if_neg hN]
      have hu1 : s1.uniqueByName name =
          .ok (some (i, Preset.ofConfig name cfg now)) := by
        unfold PresetsStore.uniqueByName
        rw [hone]
      rw [hu1]

/-- The store after creating preset `"X"` on the empty store. -/
def c8Store1 : PresetsStore := ⟨[(0, Preset.ofConfig "X" demoConfig 1)], 1⟩

/-- C8 witness: the duplicate-name behaviour at a concrete store. -/
theorem preset_duplicate_w :
    createPreset c8Store1 2 "X" { demoConfig with targetCountry := "Peru" } =
      .error ("Preset with name \x22X\x22 already exists") ∧
    c8Store1.rows.filter (fun r => r.2.name = "X") =
      [(0, Preset.ofConfig "X" demoConfig 1)] :=
  preset_duplicate ⟨[], 0⟩ 1 2 "X" demoConfig
    { demoConfig with targetCountry := "Peru" } 0 c8Store1 rfl

/-! ## C9 — `updatePreset` replacement semantics -/

/-- A preset whose config sets the optional `modelVersion`. -/
def c9Store : PresetsStore :=
  ⟨[(0, Preset.ofConfig "p" { demoConfig with modelVersion := some "v1" } 1)],
    1⟩

/-- C9, counterexample: updating preset `"p"` with a config in which the
optional `modelVersion` is **absent** leaves the old `"v1"` in the stored
document — `db.patch` merges the spread keys and never clears a field whose
key the config omitted, so update is not whole-config replacement. -/
theorem preset_update_cex :
    demoConfig.modelVersion = none ∧
    (updatePreset c9Store 2 "p" demoConfig).map
        (fun s2 => s2.rows.map (fun r => r.2.modelVersion)) =
      .ok [some "v1"] := ⟨rfl, rfl⟩

/-- C9 (amended): a successful `updatePreset(N, C)` rewrites every required
config field to `C`'s value, but each optional field (`ownLogoData`,
`modelVersion`, `aspectRatio`, `imageSize`) keeps its previous stored value
whenever it is absent from `C`; `name` and `createdAt` are preserved and
`updatedAt` becomes the call time.  (`hWF`: document ids are unique, as in
any reachable store.) -/
theorem preset_update (s : PresetsStore) (now : Nat) (name : String)
    (cfg : ProcessingConfig) (s' : PresetsStore)
    (hWF : (s.rows.map (fun r => r.1)).Nodup)
    (h : updatePreset s now name cfg = .ok s') :
    ∃ id p p', s.rows.filter (fun r => r.2.name = name) = [(id, p)] ∧
      s'.rows.filter (fun r => r.2.name = name) = [(id, p')] ∧
      p'.targetCountry = cfg.targetCountry ∧
      p'.additionalContext = cfg.additionalContext ∧
      p'.removeBranding = cfg.removeBranding ∧
      p'.addBrandingColors = cfg.addBrandingColors ∧
      p'.brandingColor = cfg.brandingColor ∧
      p'.addOwnLogo = cfg.addOwnLogo ∧
      p'.filenameFindPattern = cfg.filenameFindPattern ∧
      p'.filenameReplacePattern = cfg.filenameReplacePattern ∧
      p'.ownLogoData = (match cfg.ownLogoData with
        | some v => some v
        | none => p.ownLogoData) ∧
      p'.modelVersion = (match cfg.modelVersion with
        | some v => some v
        | none => p.modelVersion) ∧
      p'.aspectRatio = (match cfg.aspectRatio with
        | some v => some v
        | none => p.aspectRatio) ∧
      p'.imageSize = (match cfg.imageSize with
        | some v => some v
        | none => p.imageSize) ∧
      p'.name = p.name ∧ p'.createdAt = p.createdAt ∧
      p'.updatedAt = now := by
  unfold updatePreset at h
  split at h
  · exact absurd h (by simp)
  · exact absurd h (by simp)
  next id p hu =>
    have hfil : s.rows.filter (fun r => r.2.name = name) = [(id, p)] := by
      unfold PresetsStore.uniqueByName at hu
      split at hu
      · exact absurd hu (by simp)
      next r hr =>
        rw [hr]
        have := Except.ok.inj hu
        simp at this
        rw [this]
      · exact absurd hu (by simp)
    have hmem : (id, p) ∈ s.rows := by
      have : (id, p) ∈ s.rows.filter (fun r => r.2.name = name) := by
        rw [hfil]; exact List.mem_singleton.mpr rfl
      exact List.mem_of_mem_filter this
    have hs' : s' = ⟨s.rows.map (fun r =>
        if r.1 = id then (r.1, p.patchConfig cfg now) else r), s.nextId⟩ :=
      (Except.ok.inj h).symm
    have hname : p.name = name := by
      have : (id, p) ∈ s.rows.filter (fun r => r.2.name = name) := by
        rw [hfil]; exact List.mem_singleton.mpr rfl
      have := List.of_mem_filter this
      exact of_decide_eq_true this
    refine ⟨id, p, p.patchConfig cfg now, hfil, ?_, rfl, rfl, rfl, rfl, rfl,
      rfl, rfl, rfl, rfl, rfl, rfl, rfl, rfl, rfl, rfl⟩
    rw [hs']
    have hfm : (s.rows.map (fun r =>
        if r.1 = id then (r.1, p.patchConfig cfg now) else r)).filter
          (fun r => r.2.name = name) =
        (s.rows.filter (fun r => r.2.name = name)).map (fun r =>
          if r.1 = id then (r.1, p.patchConfig cfg now) else r) := by
      rw [List.filter_map]
      apply congrArg
      apply List.filter_congr
      intro r hr
      by_cases hid : r.1 = id
      · have hrp : r = (id, p) :=
          List.inj_on_of_nodup_map hWF hr hmem (by simp [hid])
        subst hrp
        simp [Preset.patchConfig, hname]
      · simp [Function.comp, hid]
    rw [hfm, hfil]
    simp

/-- The store `updatePreset c9Store 2 "p" { targetCountry := "Peru", … }`
returns. -/
def c9Updated : PresetsStore :=
  ⟨[(0, Preset.patchConfig
      (Preset.ofConfig "p" { demoConfig with modelVersion := some "v1" } 1)
      { demoConfig with targetCountry := "Peru" } 2)], 1⟩

/-- C9 witness: the amended update semantics at a concrete store — the
required `targetCountry` is replaced while the omitted optional
`modelVersion` keeps its stored value. -/
theorem preset_update_w :
    ∃ id p p',
      c9Store.rows.filter (fun r => r.2.name = "p") = [(id, p)] ∧
      c9Updated.rows.filter (fun r => r.2.name = "p") = [(id, p')] ∧
      p'.targetCountry = "Peru" ∧ p'.modelVersion = p.modelVersion ∧
      p'.name = p.name ∧ p'.createdAt = p.createdAt ∧
      p'.updatedAt = 2 := by
  obtain ⟨id, p, p', h1, h2, h3, _, _, _, _, _, _, _, _, hMV, _, _, hname,
      hcreated, hupd⟩ :=
    preset_update c9Store 2 "p" { demoConfig with targetCountry := "Peru" }
      c9Updated (by decide) rfl
  exact ⟨id, p, p', h1, h2, h3, hMV, hname, hcreated, hupd⟩

/-! ## Lemmas about the filename deriver -/

/-- Models `Nat.digitChar` of a value below ten is a decimal digit character. -/
theorem digitChar_mem_digits :
    ∀ m, m < 10 → Nat.digitChar m ∈ "0123456789".data := by decide

/-- Models `Nat.toDigitsCore` in base ten only accumulates digit characters. -/
theorem toDigitsCore_digits (fuel : Nat) :
    ∀ (n : Nat) (ds : List Char),
      (∀ c ∈ ds, c ∈ "0123456789".data) →
      ∀ c ∈ Nat.toDigitsCore 10 fuel n ds, c ∈ "0123456789".data := by
  induction fuel with
  | zero =>
    intro n ds h c hc
    exact h c hc
  | succ fuel ih =>
    intro n ds h c hc
    rw [show Nat.toDigitsCore 10 (fuel + 1) n ds =
        (if n / 10 = 0 then (n % 10).digitChar :: ds
         else Nat.toDigitsCore 10 fuel (n / 10) ((n % 10).digitChar :: ds))
        from rfl] at hc
    have hd : (n % 10).digitChar ∈ "0123456789".data :=
      digitChar_mem_digits (n % 10) (Nat.mod_lt _ (by decide))
    by_cases h0 : n / 10 = 0
    · rw [if_pos h0] at hc
      rcases List.mem_cons.mp hc with h1 | h1
      · subst h1; exact hd
      · exact h c h1
    · rw [if_neg h0] at hc
      refine ih (n / 10) _ ?_ c hc
      intro x hx
      rcases List.mem_cons.mp hx with h1 | h1
      · subst h1; exact hd
      · exact h x h1

/-- Every character of `Date.now().toString()` is a decimal digit. -/
theorem repr_digits (n : Nat) :
    ∀ c ∈ (Nat.repr n).data, c ∈ "0123456789".data := by
  intro c hc
  exact toDigitsCore_digits (n + 1) n [] (by simp) c hc

/-- Digit characters are not `$`, so they cannot start a group reference. -/
theorem digits_ne_dollar : ∀ c ∈ "0123456789".data, c ≠ '$' := by decide

/-- The scanner passes over a `$`-free chunk verbatim. -/
theorem expandGo_append_nodollar (ng : Nat) (caps : Caps)
    (matched : List Char) :
    ∀ l rest, (∀ c ∈ l, c ≠ '$') →
      expandGo ng caps matched .scan (l ++ rest) =
        l ++ expandGo ng caps matched .scan rest
  | [], _, _ => by simp
  | c :: l, rest, h => by
    have hc : ¬(c = '$') := h c (by simp)
    rw [List.cons_append]
    conv_lhs => rw [expandGo]
    rw [if_neg hc, expandGo_append_nodollar ng caps matched l rest
      (fun x hx => h x (by simp [hx]))]
    rfl

/-- Template expansion passes over a `$`-free chunk verbatim. -/
theorem expandTemplate_append_nodollar (ng : Nat) (caps : Caps)
    (matched : List Char) (l rest : List Char) (h : ∀ c ∈ l, c ≠ '$') :
    expandTemplate ng caps matched (l ++ rest) =
      l ++ expandTemplate ng caps matched rest :=
  expandGo_append_nodollar ng caps matched l rest h

/-- A list ending in an appended suffix passes `endsWithL`. -/
theorem endsWithL_append (suffix l : List Char) :
    endsWithL suffix (l ++ suffix) = true := by
  unfold endsWithL
  rw [decide_eq_true_eq]
  have h1 : (l ++ suffix).length - suffix.length = l.length := by
    simp [List.length_append]
  rw [h1, List.drop_left]

/-- Appending `.png` always yields a recognized image extension. -/
theorem hasImageExtension_append_png (l : List Char) :
    hasImageExtension (l ++ ".png".data) = true := by
  unfold hasImageExtension
  simp only [List.map_append,
    show ".png".data.map Char.toLower = ".png".data from rfl]
  simp [endsWithL_append]

/-- The matched branch of `generateOutputFilename`: with non-empty patterns,
a compiling find pattern and a matching working name, the result is exactly
the substituted output. -/
theorem generateOutputFilename_of_match (now : Nat)
    (name find rep : String) (r : Regex) (ng : Nat) (h1 : find ≠ "")
    (h2 : rep ≠ "") (h3 : parseRegex find = some (r, ng))
    (h4 : regexTest (extractWorkingName name.data) r = true) :
    generateOutputFilename now name find rep =
      List.asString (substitutedOutput now (extractWorkingName name.data)
        r ng rep) := by
  unfold generateOutputFilename
  dsimp only
  rw [if_pos (And.intro h1 h2), h3]
  dsimp only
  rw [if_pos h4]

/-! ## C7 — totality and fallback of the filename deriver -/

/-- C7: `generateOutputFilename` is total — it is a Lean function, so it
never throws — and whenever the find pattern is empty, fails to compile
(`parseRegex … = none` models the caught `new RegExp` throw), or does not
match the working name, it returns the deterministic default
`localized_<timestamp>.png`; the compile failure never escapes. -/
theorem generateOutputFilename_fallback (now : Nat)
    (name find rep : String)
    (h : find = "" ∨ parseRegex find = none ∨
      (∃ r ng, parseRegex find = some (r, ng) ∧
        regexTest (extractWorkingName name.data) r = false)) :
    generateOutputFilename now name find rep =
      "localized_" ++ Nat.repr now ++ ".png" := by
  unfold generateOutputFilename
  dsimp only
  by_cases hrep : rep = ""
  · rw [if_neg (show ¬(find ≠ "" ∧ rep ≠ "") from fun hx => hx.2 hrep)]
  · rcases h with h | h | ⟨r, ng, hp, ht⟩
    · rw [if_neg (show ¬(find ≠ "" ∧ rep ≠ "") from fun hx => hx.1 h)]
    · by_cases hfind : find = ""
      · rw [if_neg (show ¬(find ≠ "" ∧ rep ≠ "") from fun hx => hx.1 hfind)]
      · rw [if_pos (And.intro hfind hrep), h]
    · by_cases hfind : find = ""
      · rw [if_neg (show ¬(find ≠ "" ∧ rep ≠ "") from fun hx => hx.1 hfind)]
      · rw [if_pos (And.intro hfind hrep), hp]
        dsimp only
        rw [ht]
        simp

/-- C7 witness: a pattern that fails to compile (`"["`) falls back to the
default name. -/
theorem generateOutputFilename_fallback_w :
    generateOutputFilename 7 "a.jpg" "[" "y" =
      "localized_" ++ Nat.repr 7 ++ ".png" :=
  generateOutputFilename_fallback 7 "a.jpg" "[" "y" (Or.inr (Or.inl rfl))

/-! ## C5 — deterministic filename derivation -/

/-- The compiled form of the find pattern `^.*-([^-.]+)\..*$`
(`parseRegex` returns exactly this AST — see the `rfl` proofs below). -/
def c5Regex : Regex :=
  .cons .start .one (.cons .dot .star (.cons (.lit '-') .one
    (.cons (.group 1 (.cons (.cls true [('-', '-'), ('.', '.')]) .plus .nil))
      .one (.cons (.lit '.') .one (.cons .dot .star
        (.cons .eol .one .nil))))))

set_option maxRecDepth 100000 in
set_option maxHeartbeats 2000000 in
/-- C5: with the clock fixed at any `t`,
`generateOutputFilename("inhale-exhale-customneon-mintgreen.jpg",
"^.*-([^-.]+)\\..*$", "neonLED_$1_TIMESTAMP.png")` is exactly
`"neonLED_mintgreen_" ++ decimal digits of t ++ ".png"` — hence it matches
`^neonLED_mintgreen_\d+\.png$` — and depends on nothing besides the inputs
and the clock. -/
theorem filename_derivation (t : Nat) :
    generateOutputFilename t "inhale-exhale-customneon-mintgreen.jpg"
        "^.*-([^-.]+)\\..*$" "neonLED_$1_TIMESTAMP.png" =
      "neonLED_mintgreen_" ++ Nat.repr t ++ ".png" ∧
    ∀ c ∈ (Nat.repr t).data, c ∈ "0123456789".data := by
  refine ⟨?_, repr_digits t⟩
  rw [generateOutputFilename_of_match t
    "inhale-exhale-customneon-mintgreen.jpg" "^.*-([^-.]+)\\..*$"
    "neonLED_$1_TIMESTAMP.png" c5Regex 1 (by decide) (by decide) rfl rfl]
  unfold substitutedOutput
  dsimp only
  rw [show replaceTimestampAux (Nat.repr t).data
      "neonLED_$1_TIMESTAMP.png".data =
      "neonLED_$1_".data ++ ((Nat.repr t).data ++ ".png".data) from rfl]
  unfold regexReplace
  rw [show firstMatch
      (extractWorkingName "inhale-exhale-customneon-mintgreen.jpg".data)
      c5Regex = some (0, 38, [(1, "mintgreen".data)]) from rfl]
  dsimp only
  rw [show ∀ M, expandTemplate 1 [(1, "mintgreen".data)] M
      ("neonLED_$1_".data ++ ((Nat.repr t).data ++ ".png".data)) =
      "neonLED_mintgreen_".data ++ expandTemplate 1 [(1, "mintgreen".data)]
        M ((Nat.repr t).data ++ ".png".data) from fun M => rfl]
  rw [expandTemplate_append_nodollar 1 [(1, "mintgreen".data)] _
    (Nat.repr t).data ".png".data
    (fun c hc => digits_ne_dollar c (repr_digits t c hc))]
  rw [show ∀ M, expandTemplate 1 [(1, "mintgreen".data)] M ".png".data =
      ".png".data from fun M => rfl]
  rw [show (extractWorkingName
      "inhale-exhale-customneon-mintgreen.jpg".data).take 0 = [] from rfl]
  rw [show (extractWorkingName
      "inhale-exhale-customneon-mintgreen.jpg".data).drop 38 = [] from rfl]
  simp only [List.nil_append, List.append_nil]
  have hext : hasImageExtension ("neonLED_mintgreen_".data ++
      ((Nat.repr t).data ++ ".png".data)) = true := by
    have h := hasImageExtension_append_png
      ("neonLED_mintgreen_".data ++ (Nat.repr t).data)
    simpa [List.append_assoc] using h
  rw [hext]
  simp only [if_true]
  rfl

/-! ## C6 — two-pass template substitution order -/

set_option maxRecDepth 100000 in
set_option maxHeartbeats 2000000 in
/-- C6: in the matched branch the template substitution is two passes in a
fixed order — the literal `TIMESTAMP` token is replaced by the epoch
timestamp first, and the `$n` capture references are resolved afterwards on
the resulting template (the second conjunct displays the order inside
`substitutedOutput`).  The order is observable: on
`"x-TIMESTAMP.jpg"`, whose capture is the text `TIMESTAMP`, the code yields
`neonLED_TIMESTAMP_99.png` while the flipped order would yield
`neonLED_99_99.png`. -/
theorem template_substitution_order (now : Nat) (name find rep : String)
    (r : Regex) (ng : Nat) (h1 : find ≠ "") (h2 : rep ≠ "")
    (h3 : parseRegex find = some (r, ng))
    (h4 : regexTest (extractWorkingName name.data) r = true) :
    generateOutputFilename now name find rep =
      List.asString (substitutedOutput now (extractWorkingName name.data)
        r ng rep) ∧
    substitutedOutput now (extractWorkingName name.data) r ng rep =
      (let nn := regexReplace r ng (extractWorkingName name.data)
          (replaceTimestampAux (Nat.repr now).data rep.data)
       if hasImageExtension nn then nn else nn ++ ".png".data) ∧
    generateOutputFilename 99 "x-TIMESTAMP.jpg" "^.*-([^-.]+)\\..*$"
        "neonLED_$1_TIMESTAMP.png" = "neonLED_TIMESTAMP_99.png" ∧
    generateOutputFilenameGroupsFirst 99 "x-TIMESTAMP.jpg"
        "^.*-([^-.]+)\\..*$" "neonLED_$1_TIMESTAMP.png" =
      "neonLED_99_99.png" ∧
    ("neonLED_TIMESTAMP_99.png" : String) ≠ "neonLED_99_99.png" :=
  ⟨generateOutputFilename_of_match now name find rep r ng h1 h2 h3 h4,
   rfl, rfl, rfl, by decide⟩

set_option maxRecDepth 100000 in
set_option maxHeartbeats 2000000 in
/-- C6 witness: the theorem at the distinguishing concrete input. -/
theorem template_substitution_order_w :
    generateOutputFilename 99 "x-TIMESTAMP.jpg" "^.*-([^-.]+)\\..*$"
        "neonLED_$1_TIMESTAMP.png" =
      List.asString (substitutedOutput 99
        (extractWorkingName "x-TIMESTAMP.jpg".data) c5Regex 1
        "neonLED_$1_TIMESTAMP.png") ∧
    substitutedOutput 99 (extractWorkingName "x-TIMESTAMP.jpg".data) c5Regex
        1 "neonLED_$1_TIMESTAMP.png" =
      (let nn := regexReplace c5Regex 1
          (extractWorkingName "x-TIMESTAMP.jpg".data)
          (replaceTimestampAux (Nat.repr 99).data
            "neonLED_$1_TIMESTAMP.png".data)
       if hasImageExtension nn then nn else nn ++ ".png".data) ∧
    generateOutputFilename 99 "x-TIMESTAMP.jpg" "^.*-([^-.]+)\\..*$"
        "neonLED_$1_TIMESTAMP.png" = "neonLED_TIMESTAMP_99.png" ∧
    generateOutputFilenameGroupsFirst 99 "x-TIMESTAMP.jpg"
        "^.*-([^-.]+)\\..*$" "neonLED_$1_TIMESTAMP.png" =
      "neonLED_99_99.png" ∧
    ("neonLED_TIMESTAMP_99.png" : String) ≠ "neonLED_99_99.png" :=
  template_substitution_order 99 "x-TIMESTAMP.jpg" "^.*-([^-.]+)\\..*$"
    "neonLED_$1_TIMESTAMP.png" c5Regex 1 (by decide) (by decide) rfl rfl

/-! ## C4 — the orchestrator never re-throws -/

/-- C4: for every id naming an existing job, `processJob` returns normally
(`Except.ok`) whatever the environment does: the job ends `completed`, or
`failed` with a non-empty error message; and whenever the `try` block
(steps 3–8) throws some message `e`, the job is recorded `failed` with
exactly `e.message || "Unknown error"` — the final status is the only
caller-visible outcome. -/
theorem processJob_error_handling (env : ProcEnv) (now : Nat)
    (s : JobsStore) (jobId : Nat) (job : Job)
    (h : s.get jobId = some job) :
    ∃ s' j', processJob env now s jobId = .ok s' ∧
      s'.get jobId = some j' ∧
      (j'.status = .completed ∨
        (j'.status = .failed ∧ ∃ m, j'.error = some m ∧ m ≠ "")) ∧
      (∀ e, runProcessSteps env now job = .error e →
        j'.status = .failed ∧
        j'.error = some (if e = "" then "Unknown error" else e)) := by
  obtain ⟨s1, hp1, hg1, _, _⟩ :=
    JobsStore.patch_get s jobId (fun j => { j with status := .processing })
      (by rw [h]; rfl)
  unfold processJob setJobProcessing
  rw [h, hp1]
  dsimp only
  cases hr : runProcessSteps env now job with
  | ok v =>
    obtain ⟨fileId, fname, fileUrl, pt, ct, tt⟩ := v
    obtain ⟨s2, hp2, hg2, _, _⟩ :=
      JobsStore.patch_get s1 jobId (fun j =>
        { j with
          status := .completed, generatedFileId := some fileId,
          generatedFileName := some fname, generatedUrl := some fileUrl,
          promptTokens := some pt, candidateTokens := some ct,
          totalTokens := some tt, completedAt := some now })
        (by rw [hg1, h]; rfl)
    unfold jobsSetCompleted
    dsimp only
    rw [hp2]
    rw [hg1, h] at hg2
    refine ⟨s2, _, rfl, hg2, Or.inl rfl, ?_⟩
    intro e he
    exact absurd he (by simp)
  | error e =>
    obtain ⟨s2, hp2, hg2, _, _⟩ :=
      JobsStore.patch_get s1 jobId (fun j =>
        { j with
          status := .failed,
          error := some (if e = "" then "Unknown error" else e),
          completedAt := some now })
        (by rw [hg1, h]; rfl)
    unfold setJobFailed
    dsimp only
    rw [hp2]
    rw [hg1, h] at hg2
    refine ⟨s2, _, rfl, hg2, ?_, ?_⟩
    · refine Or.inr ⟨rfl, if e = "" then "Unknown error" else e, rfl, ?_⟩
      by_cases h0 : e = ""
      · rw [if_pos h0]; decide
      · rw [if_neg h0]; exact h0
    · intro e2 he2
      have : e = e2 := Except.error.inj he2
      subst this
      exact ⟨rfl, rfl⟩

/-- An environment whose very first step (the source-image fetch) throws. -/
def c4Env : ProcEnv where
  fetchResult := .error "Failed to fetch image: 404 Not Found"
  apiKey := none
  geminiResult := .error "unreachable"
  storeResult := .error "unreachable"
  urlForFile := fun _ => none

/-- C4 witness: the theorem at a concrete store and a failing
environment. -/
theorem processJob_error_handling_w :
    ∃ s' j', processJob c4Env 9 c3Store1 0 = .ok s' ∧
      s'.get 0 = some j' ∧
      (j'.status = .completed ∨
        (j'.status = .failed ∧ ∃ m, j'.error = some m ∧ m ≠ "")) ∧
      (∀ e, runProcessSteps c4Env 9
          { sourceUrl := "http://h/a.jpg", config := demoConfig,
            presetName := none, batchId := none, status := .pending,
            generatedFileName := some "a.jpg", createdAt := 1 } = .error e →
        j'.status = .failed ∧
        j'.error = some (if e = "" then "Unknown error" else e)) :=
  processJob_error_handling c4Env 9 c3Store1 0
    { sourceUrl := "http://h/a.jpg", config := demoConfig,
      presetName := none, batchId := none, status := .pending,
      generatedFileName := some "a.jpg", createdAt := 1 } (by decide)

end NanobanaGen
